import Mathlib

/-!
Shallow embedding of `src/main.rs` of the i3-workspaces repository: an
event-driven widget generator that maintains an ordered map from workspace
key to rendered button markup and re-renders it on workspace events.

Rust `panic!`/`unwrap` failures and `?`-propagated `None`s are both
process-terminating in the source's event loop, so fallible operations are
modelled with `Option`, `none` standing for the fatal outcome.
-/

namespace I3Workspaces

/-- A workspace summary as returned by the i3 `get_workspaces` query
(`i3_ipc::reply::Workspace`): numeric id, display name, output name and the
three visibility flags consulted by `get_visibility_workspace`. -/
structure Workspace where
  id : Nat
  name : String
  output : String
  focused : Bool
  urgent : Bool
  visible : Bool
deriving Repr, DecidableEq

/-- A workspace node as carried in a workspace event payload
(`i3_ipc::reply::Node`, restricted to the fields the program reads):
numeric id, optional name, optional output. -/
structure Node where
  id : Nat
  name : Option String
  output : Option String
deriving Repr, DecidableEq

/-- `get_button`: the dedented `formatdoc!` template of the source, a
three-line button markup string parameterized by key, label and
visibility class. -/
def get_button (num : Nat) (name : String) (vis : String) : String :=
  "(button   :class " ++ "'i3wm-workspace-" ++ vis ++ "'" ++ "\n" ++
  "          :onclick " ++ "'i3-msg -t run_command workspace " ++
    toString num ++ "'" ++ "\n" ++
  "          " ++ "'" ++ name ++ "'" ++ ")"

/-- `BOX`: the fixed container header (`indoc!` literal), ending in a
newline as in the source. -/
def BOX : String :=
  "(box :class " ++ "'i3wm-workspaces'" ++ "\n" ++
  "     :orientation " ++ "'h'" ++ "\n" ++
  "     :spacing 5" ++ "\n" ++
  "     :space-evenly " ++ "'false'" ++ "\n"

/-- `trim_newlines`: `input.retain(|c| c != char-0x0A)` — removes every
line-break character from the string. -/
def trim_newlines (input : String) : String :=
  String.mk (input.data.filter (fun c => c != Char.ofNat 10))

/-- The Registry (`BTreeMap<usize, String>` in the source), modelled as an
association list kept in strictly ascending key order, which is exactly the
iteration order a `BTreeMap` provides. -/
abbrev Registry := List (Nat × String)

/-- `BTreeMap::insert`: ordered upsert, replacing the value when the key is
already present and splicing the new pair at its sorted position
otherwise. -/
def Registry.insert : Registry → Nat → String → Registry
  | [], k, v => [(k, v)]
  | (k', v') :: rest, k, v =>
    if k < k' then (k, v) :: (k', v') :: rest
    else if k = k' then (k, v) :: rest
    else (k', v') :: Registry.insert rest k v

/-- `BTreeMap::contains_key`. -/
def Registry.contains_key (m : Registry) (k : Nat) : Bool :=
  m.any (fun p => p.1 == k)

/-- `BTreeMap::remove`, keeping only the resulting map (the source mostly
discards the returned value; where it tests `.is_some()` we pair this with
`Registry.contains_key`). -/
def Registry.remove (m : Registry) (k : Nat) : Registry :=
  m.filter (fun p => p.1 != k)

/-- `print_workspaces`: joins the stored widgets in iteration order between
the `BOX` header and a closing parenthesis, then strips all newlines,
yielding the single output line. -/
def print_workspaces (m : Registry) : String :=
  trim_newlines (BOX ++ "\n" ++ String.join (m.map (fun p => p.2)) ++ ")\n")

/-- Rust `str::parse::<usize>()`: an optional leading plus sign followed by
one or more ASCII decimal digits, rejecting values that overflow a 64-bit
unsigned integer. -/
def rustParseUsize (s : String) : Option Nat :=
  let l := match s.data with
    | c :: rest => if c = '+' then rest else c :: rest
    | [] => []
  if l = [] then none
  else if l.all (fun c => c.isDigit) then
    let n := l.foldl (fun a c => a * 10 + (c.toNat - 48)) 0
    if n < 2 ^ 64 then some n else none
  else none

/-- Rust `str::split_once` specialised to the one-character pattern used in
the source: split at the first occurrence of the separator, `none` when it
does not occur. -/
def splitOnceSemi : List Char → Option (List Char × List Char)
  | [] => none
  | c :: rest =>
    if c = ';' then some ([], rest)
    else (splitOnceSemi rest).map (fun p => (c :: p.1, p.2))

/-- `name.retain(|c| !c.is_ascii())`: keep only the characters above the
ASCII range. -/
def keepNonAscii (s : String) : String :=
  String.mk (s.data.filter (fun c => decide (127 < c.toNat)))

/-- The placeholder glyph pushed when the stripped label is empty
(U+F111 in the source). -/
def placeholderChar : Char := Char.ofNat 0xF111

/-- The identity cache (`NAME_KEY`, a `HashMap<usize, (usize, String)>`),
modelled as an association list from window-manager id to the memoized
`(key, label)` pair. -/
abbrev Cache := List (Nat × (Nat × String))

/-- `HashMap::get` on the identity cache. -/
def Cache.find? (c : Cache) (id : Nat) : Option (Nat × String) :=
  (List.find? (fun p => p.1 == id) c).map (fun p => p.2)

/-- `get_name_key`: the Identity Resolver. Returns the cached pair when
`id` is already present; otherwise parses `name` (whole string when there
is no separator, else numeric part before the first separator, label =
remainder stripped of ASCII with the placeholder substituted when empty),
caches, and returns. `none` models the `unwrap` panic on parse failure. -/
def get_name_key (id : Nat) (name : String) (c : Cache) :
    Option ((Nat × String) × Cache) :=
  match Cache.find? c id with
  | some p => some (p, c)
  | none =>
    match splitOnceSemi name.data with
    | none =>
      (rustParseUsize name).map
        (fun k => ((k, name), (id, (k, name)) :: c))
    | some (numPart, rest) =>
      (rustParseUsize (String.mk numPart)).map (fun k =>
        let stripped := keepNonAscii (String.mk rest)
        let label :=
          if stripped.length = 0 then String.mk [placeholderChar]
          else stripped
        ((k, label), (id, (k, label)) :: c))

/-- `get_name_key_from_node`: resolves through the node's optional name;
`none` covers both the missing-name case and the parse panic, both fatal
at the call sites (`.unwrap()`). -/
def get_name_key_from_node (node : Node) (c : Cache) :
    Option ((Nat × String) × Cache) :=
  node.name.bind (fun nm => get_name_key node.id nm c)

/-- `get_name_key_from_workspace`: resolves a live workspace summary
(whose name is always present). -/
def get_name_key_from_workspace (w : Workspace) (c : Cache) :
    Option ((Nat × String) × Cache) :=
  get_name_key w.id w.name c

/-- `get_visibility_workspace`: Contract A — priority
focused > urgent > visible > hidden. -/
def get_visibility_workspace (w : Workspace) : String :=
  if w.focused then "focused"
  else if w.urgent then "urgent"
  else if w.visible then "visible"
  else "hidden"

/-- `get_visibility_node`: Contract B — look the node's id up in the live
workspace list; empty class token when no live workspace matches. -/
def get_visibility_node (live : List Workspace) (node : Node) : String :=
  match live.find? (fun w => w.id == node.id) with
  | some w => get_visibility_workspace w
  | none => ""

/-- The workspace event kinds the reducer distinguishes; `Other` stands
for every kind the source's wildcard arm ignores. -/
inductive WorkspaceChange where
  | Urgent
  | Empty
  | Focus
  | Init
  | Move
  | Other
deriving Repr, DecidableEq

/-- A workspace event: change kind plus the optional `current` and `old`
nodes of the payload. -/
structure WorkspaceEvent where
  change : WorkspaceChange
  current : Option Node
  old : Option Node
deriving Repr, DecidableEq

/-- The reducer's mutable state: the Registry and the identity cache. -/
structure State where
  map : Registry
  cache : Cache
deriving DecidableEq, Repr

/-- The `old`-workspace sub-step of the Focus arm (source lines 61–85):
when the resolved key is tracked, keep or drop the entry according to
whether a live workspace still carries `old`'s name — recomputing
visibility by id on keep — and mark dirty; otherwise leave the Registry
untouched. -/
def focusOld (live : List Workspace) (map : Registry) (c : Cache)
    (node : Node) : Option (Registry × Cache × Bool) :=
  match get_name_key_from_node node c with
  | none => none
  | some ((key, name), c') =>
    if Registry.contains_key map key then
      match node.name with
      | none => none
      | some nm =>
        match live.find? (fun w => w.name == nm) with
        | some _ =>
          some (Registry.insert map key
            (get_button key name (get_visibility_node live node)), c', true)
        | none => some (Registry.remove map key, c', true)
    else some (map, c', false)

/-- The `current`-workspace sub-step of the Focus arm (source lines
87–93): re-render as focused when tracked, otherwise do nothing. -/
def focusCurrent (map : Registry) (c : Cache) (node : Node) :
    Option (Registry × Cache × Bool) :=
  match get_name_key_from_node node c with
  | none => none
  | some ((key, name), c') =>
    if Registry.contains_key map key then
      some (Registry.insert map key (get_button key name "focused"), c',
        true)
    else some (map, c', false)

/-- One iteration of the event loop's `match e.change` (source lines
42–133): consumes an event against the current state and the live
workspace list returned by the in-event `get_workspaces` queries, yielding
the new state and the `update` flag; `none` models a panic. -/
def step (monitor : String) (live : List Workspace) (st : State)
    (e : WorkspaceEvent) : Option (State × Bool) :=
  match e.change with
  | WorkspaceChange.Urgent =>
    match e.current with
    | none => none
    | some node =>
      match get_name_key_from_node node st.cache with
      | none => none
      | some ((key, name), c') =>
        some (⟨Registry.insert st.map key (get_button key name "urgent"),
          c'⟩, true)
  | WorkspaceChange.Empty =>
    match e.current with
    | none => none
    | some node =>
      match node.name with
      | none => none
      | some nm =>
        match rustParseUsize nm with
        | none => none
        | some key => some (⟨Registry.remove st.map key, st.cache⟩, true)
  | WorkspaceChange.Focus =>
    match e.old with
    | none => none
    | some oldNode =>
      match focusOld live st.map st.cache oldNode with
      | none => none
      | some (m1, c1, u1) =>
        match e.current with
        | none => none
        | some curNode =>
          match focusCurrent m1 c1 curNode with
          | none => none
          | some (m2, c2, u2) => some (⟨m2, c2⟩, u1 || u2)
  | WorkspaceChange.Init =>
    match e.current with
    | none => none
    | some node =>
      match get_name_key_from_node node st.cache with
      | none => none
      | some ((key, name), c') =>
        some (⟨Registry.insert st.map key
          (get_button key name (get_visibility_node live node)), c'⟩, false)
  | WorkspaceChange.Move =>
    match e.current with
    | none => none
    | some node =>
      match get_name_key_from_node node st.cache with
      | none => none
      | some ((key, name), c') =>
        match node.output with
        | some o =>
          if o == monitor && !(Registry.contains_key st.map key) then
            some (⟨Registry.insert st.map key
              (get_button key name (get_visibility_node live node)), c'⟩,
              true)
          else if o != monitor && Registry.contains_key st.map key then
            some (⟨Registry.remove st.map key, c'⟩, true)
          else some (⟨st.map, c'⟩, false)
        | none =>
          some (⟨Registry.remove st.map key, c'⟩,
            Registry.contains_key st.map key)
  | WorkspaceChange.Other => some (st, false)

/-- The event-loop tail (source lines 137–139): after an event is
processed, a render line is printed exactly when the `update` flag is set.
The second component is the emitted line, `Option.none` when nothing is
printed. -/
def processEvent (monitor : String) (live : List Workspace) (st : State)
    (e : WorkspaceEvent) : Option (State × Option String) :=
  (step monitor live st e).map
    (fun p => (p.1, if p.2 then some (print_workspaces p.1.map) else none))

/-- The numeric portion of a raw name as the Identity Resolver parses it:
the whole string when no separator occurs, else the part before the first
separator. -/
def numericPortion (name : String) : String :=
  match splitOnceSemi name.data with
  | none => name
  | some (np, _) => String.mk np

/-! ### Registry lemmas -/

theorem mem_insert {m : Registry} {k : Nat} {v : String} {y : Nat × String}
    (h : y ∈ Registry.insert m k v) : y = (k, v) ∨ y ∈ m := by
  induction m with
  | nil =>
    rw [Registry.insert] at h
    exact Or.inl (List.mem_singleton.mp h)
  | cons hd tl ih =>
    obtain ⟨k', v'⟩ := hd
    rw [Registry.insert] at h
    split at h
    · rcases List.mem_cons.mp h with h | h
      · exact Or.inl h
      · exact Or.inr h
    · split at h
      · rcases List.mem_cons.mp h with h | h
        · exact Or.inl h
        · exact Or.inr (List.mem_cons_of_mem _ h)
      · rcases List.mem_cons.mp h with h | h
        · exact Or.inr (h ▸ List.mem_cons_self _ _)
        · rcases ih h with h | h
          · exact Or.inl h
          · exact Or.inr (List.mem_cons_of_mem _ h)

theorem pairwise_insert {m : Registry} {k : Nat} {v : String}
    (h : m.Pairwise (fun a b => a.1 < b.1)) :
    (Registry.insert m k v).Pairwise (fun a b => a.1 < b.1) := by
  induction m with
  | nil =>
    rw [Registry.insert]
    exact List.pairwise_singleton _ _
  | cons hd tl ih =>
    obtain ⟨k', v'⟩ := hd
    rw [List.pairwise_cons] at h
    obtain ⟨hlt, htl⟩ := h
    rw [Registry.insert]
    split
    · rename_i hk
      refine List.Pairwise.cons ?_ (List.Pairwise.cons hlt htl)
      intro y hy
      rcases List.mem_cons.mp hy with rfl | hy
      · exact hk
      · exact lt_trans hk (hlt y hy)
    · split
      · rename_i hnlt hk
        subst hk
        exact List.Pairwise.cons hlt htl
      · rename_i hnlt hne
        refine List.Pairwise.cons ?_ (ih htl)
        intro y hy
        rcases mem_insert hy with rfl | hy
        · exact lt_of_le_of_ne (not_lt.mp hnlt) (Ne.symm hne)
        · exact hlt y hy

theorem contains_key_iff {m : Registry} {k : Nat} :
    Registry.contains_key m k = true ↔ ∃ p ∈ m, p.1 = k := by
  simp [Registry.contains_key, List.any_eq_true]

theorem remove_of_not_contains {m : Registry} {k : Nat}
    (h : Registry.contains_key m k = false) : Registry.remove m k = m := by
  rw [Registry.remove, List.filter_eq_self]
  intro p hp
  rw [bne_iff_ne]
  intro hpk
  have hc : Registry.contains_key m k = true :=
    contains_key_iff.mpr ⟨p, hp, hpk⟩
  rw [h] at hc
  exact Bool.false_ne_true hc

theorem contains_remove {m : Registry} {k k' : Nat}
    (h : Registry.contains_key (Registry.remove m k) k' = true) :
    Registry.contains_key m k' = true := by
  rw [contains_key_iff] at h ⊢
  obtain ⟨p, hp, hpk⟩ := h
  exact ⟨p, List.mem_of_mem_filter hp, hpk⟩

theorem contains_insert {m : Registry} {k k' : Nat} {v : String}
    (hk : Registry.contains_key m k = true)
    (h : Registry.contains_key (Registry.insert m k v) k' = true) :
    Registry.contains_key m k' = true := by
  rw [contains_key_iff] at h ⊢
  obtain ⟨p, hp, hpk⟩ := h
  rcases mem_insert hp with rfl | hp'
  · obtain ⟨q, hq, hqk⟩ := contains_key_iff.mp hk
    exact ⟨q, hq, by rw [hqk]; exact hpk⟩
  · exact ⟨p, hp', hpk⟩

/-! ### Splitter lemmas -/

theorem splitOnceSemi_of_not_mem {l : List Char} (h : ';' ∉ l) :
    splitOnceSemi l = none := by
  induction l with
  | nil => rfl
  | cons c rest ih =>
    have hc : ¬(c = ';') :=
      fun hc => h (by rw [hc]; exact List.mem_cons_self _ _)
    rw [splitOnceSemi, if_neg hc,
      ih (fun hm => h (List.mem_cons_of_mem _ hm))]
    rfl

theorem splitOnceSemi_append {a b : List Char} (h : ';' ∉ a) :
    splitOnceSemi (a ++ ';' :: b) = some (a, b) := by
  induction a with
  | nil =>
    rw [List.nil_append, splitOnceSemi, if_pos rfl]
  | cons c rest ih =>
    have hc : ¬(c = ';') :=
      fun hc => h (by rw [hc]; exact List.mem_cons_self _ _)
    rw [List.cons_append, splitOnceSemi, if_neg hc,
      ih (fun hm => h (List.mem_cons_of_mem _ hm))]
    rfl

/-! ### Identity-cache lemmas -/

theorem get_name_key_cached {id : Nat} {n : String} {c : Cache}
    {p : Nat × String} (h : Cache.find? c id = some p) :
    get_name_key id n c = some (p, c) := by
  rw [get_name_key, h]

theorem get_name_key_find {id : Nat} {n : String} {c c' : Cache}
    {p : Nat × String} (h : get_name_key id n c = some (p, c')) :
    Cache.find? c' id = some p := by
  unfold get_name_key at h
  split at h
  · rename_i q hq
    simp only [Option.some.injEq, Prod.mk.injEq] at h
    obtain ⟨h1, h2⟩ := h
    subst h1
    subst h2
    exact hq
  · rename_i hnone
    split at h
    · rcases hp : rustParseUsize n with _ | k
      · rw [hp] at h
        simp at h
      · rw [hp] at h
        simp only [Option.map_some', Option.some.injEq, Prod.mk.injEq] at h
        obtain ⟨h1, h2⟩ := h
        subst h1
        subst h2
        simp [Cache.find?]
    · rename_i np rest hsplit
      rcases hp : rustParseUsize (String.mk np) with _ | k
      · rw [hp] at h
        simp at h
      · rw [hp] at h
        simp only [Option.map_some', Option.some.injEq, Prod.mk.injEq] at h
        obtain ⟨h1, h2⟩ := h
        subst h1
        subst h2
        simp [Cache.find?]

/-! ### Focus sub-step lemmas -/

theorem focusOld_keys {live : List Workspace} {map : Registry} {c : Cache}
    {node : Node} {m' : Registry} {c' : Cache} {u : Bool}
    (h : focusOld live map c node = some (m', c', u)) :
    ∀ k, Registry.contains_key m' k = true →
      Registry.contains_key map k = true := by
  unfold focusOld at h
  split at h
  · simp at h
  · rename_i key name c'' heq
    split at h
    · rename_i hcont
      split at h
      · simp at h
      · rename_i nm hnm
        split at h
        · simp only [Option.some.injEq, Prod.mk.injEq] at h
          obtain ⟨h1, h2, h3⟩ := h
          subst h1
          intro k hk
          exact contains_insert hcont hk
        · simp only [Option.some.injEq, Prod.mk.injEq] at h
          obtain ⟨h1, h2, h3⟩ := h
          subst h1
          intro k hk
          exact contains_remove hk
    · simp only [Option.some.injEq, Prod.mk.injEq] at h
      obtain ⟨h1, h2, h3⟩ := h
      subst h1
      intro k hk
      exact hk

theorem focusCurrent_keys {map : Registry} {c : Cache} {node : Node}
    {m' : Registry} {c' : Cache} {u : Bool}
    (h : focusCurrent map c node = some (m', c', u)) :
    ∀ k, Registry.contains_key m' k = true →
      Registry.contains_key map k = true := by
  unfold focusCurrent at h
  split at h
  · simp at h
  · rename_i key name c'' heq
    split at h
    · rename_i hcont
      simp only [Option.some.injEq, Prod.mk.injEq] at h
      obtain ⟨h1, h2, h3⟩ := h
      subst h1
      intro k hk
      exact contains_insert hcont hk
    · simp only [Option.some.injEq, Prod.mk.injEq] at h
      obtain ⟨h1, h2, h3⟩ := h
      subst h1
      intro k hk
      exact hk

theorem step_focus_keys {monitor : String} {live : List Workspace}
    {st : State} {cur old : Option Node} {st' : State} {u : Bool}
    (h : step monitor live st ⟨WorkspaceChange.Focus, cur, old⟩ =
      some (st', u)) :
    ∀ k, Registry.contains_key st'.map k = true →
      Registry.contains_key st.map k = true := by
  unfold step at h
  simp only at h
  split at h
  · simp at h
  · rename_i oldNode hold
    split at h
    · simp at h
    · rename_i m1 c1 u1 hfo
      split at h
      · simp at h
      · rename_i curNode hcur
        split at h
        · simp at h
        · rename_i m2 c2 u2 hfc
          simp only [Option.some.injEq, Prod.mk.injEq] at h
          obtain ⟨h1, h2⟩ := h
          subst h1
          intro k hk
          exact focusOld_keys hfo k (focusCurrent_keys hfc k hk)

theorem step_empty_keys {monitor : String} {live : List Workspace}
    {st : State} {cur old : Option Node} {st' : State} {u : Bool}
    (h : step monitor live st ⟨WorkspaceChange.Empty, cur, old⟩ =
      some (st', u)) :
    ∀ k, Registry.contains_key st'.map k = true →
      Registry.contains_key st.map k = true := by
  unfold step at h
  simp only at h
  split at h
  · simp at h
  · split at h
    · simp at h
    · split at h
      · simp at h
      · simp only [Option.some.injEq, Prod.mk.injEq] at h
        obtain ⟨h1, h2⟩ := h
        subst h1
        intro k hk
        exact contains_remove hk

/-! ### Claim theorems -/

/-- C1 counterexample: an Empty event whose parsed key 2 is not present in
the Registry (which holds only key 1) still sets the dirty flag and emits a
render line, refuting the claimed no-op at this concrete input. -/
theorem c1_counterexample :
    processEvent "M1" [] ⟨[(1, "w")], []⟩
      ⟨WorkspaceChange.Empty, some ⟨5, some "2", none⟩, none⟩ =
      some (⟨[(1, "w")], []⟩, some (print_workspaces [(1, "w")]))
    ∧ (some (print_workspaces [(1, "w")]) : Option String) ≠ none := by
  exact ⟨rfl, by simp⟩

/-- C1 (amended): an Empty event on an untracked parsed key leaves the
Registry and cache unchanged, but the dirty flag is still set and a render
line of the unchanged Registry is emitted. -/
theorem c1_empty_untracked_rerenders (monitor : String)
    (live : List Workspace) (st : State) (node : Node) (old : Option Node)
    (nm : String) (key : Nat) (hnm : node.name = some nm)
    (hp : rustParseUsize nm = some key)
    (huntracked : Registry.contains_key st.map key = false) :
    processEvent monitor live st ⟨WorkspaceChange.Empty, some node, old⟩ =
      some (st, some (print_workspaces st.map)) := by
  simp [processEvent, step, hnm, hp, remove_of_not_contains huntracked]

/-- Witness for C1 at a concrete Empty event on untracked key 3. -/
theorem c1_witness :
    processEvent "M2" [] ⟨[(9, "w")], []⟩
      ⟨WorkspaceChange.Empty, some ⟨6, some "3", none⟩, none⟩ =
      some (⟨[(9, "w")], []⟩, some (print_workspaces [(9, "w")])) :=
  c1_empty_untracked_rerenders "M2" [] ⟨[(9, "w")], []⟩ ⟨6, some "3", none⟩
    none "3" 3 rfl (by rfl) (by rfl)

/-- C2 counterexample: an Urgent event for untracked key 3 inserts a new
Registry entry, so an Urgent event can grow the Registry key set. -/
theorem c2_counterexample :
    Registry.contains_key ([] : Registry) 3 = false
    ∧ step "M1" [] ⟨[], []⟩
        ⟨WorkspaceChange.Urgent, some ⟨7, some "3", none⟩, none⟩ =
      some (⟨[(3, get_button 3 "3" "urgent")], [(7, (3, "3"))]⟩, true)
    ∧ Registry.contains_key [(3, get_button 3 "3" "urgent")] 3 = true :=
  ⟨rfl, rfl, rfl⟩

/-- C2 (amended): Registry entries are created by Init, Move and Urgent
events and the initial seed; Focus (as well as Empty and ignored) events
never grow the Registry key set — a key untracked before such an event is
still untracked afterwards. -/
theorem c2_focus_never_grows (monitor : String) (live : List Workspace)
    (st : State) (e : WorkspaceEvent) (st' : State) (u : Bool)
    (hch : e.change = WorkspaceChange.Focus ∨
      e.change = WorkspaceChange.Empty ∨ e.change = WorkspaceChange.Other)
    (h : step monitor live st e = some (st', u)) :
    ∀ k, Registry.contains_key st.map k = false →
      Registry.contains_key st'.map k = false := by
  intro k hk
  cases hcont : Registry.contains_key st'.map k with
  | false => rfl
  | true =>
    exfalso
    have hsub : Registry.contains_key st.map k = true := by
      obtain ⟨ch, cur, old⟩ := e
      simp only at hch
      rcases hch with hc | hc | hc
      all_goals subst hc
      · exact step_focus_keys h k hcont
      · exact step_empty_keys h k hcont
      · have hstep : step monitor live st
            ⟨WorkspaceChange.Other, cur, old⟩ = some (st, false) := rfl
        rw [hstep] at h
        simp only [Option.some.injEq, Prod.mk.injEq] at h
        obtain ⟨h1, h2⟩ := h
        rw [h1]
        exact hcont
    rw [hk] at hsub
    exact Bool.false_ne_true hsub

/-- Witness for C2: a Focus event that drops the lone tracked key; key 5,
untracked before, is still untracked afterwards. -/
theorem c2_witness :
    step "M1" [] ⟨[(1, "w")], []⟩
      ⟨WorkspaceChange.Focus, some ⟨1, some "1", none⟩,
        some ⟨1, some "1", none⟩⟩ =
      some (⟨[], [(1, (1, "1"))]⟩, true)
    ∧ Registry.contains_key ([(1, "w")] : Registry) 5 = false
    ∧ Registry.contains_key ([] : Registry) 5 = false := by
  refine ⟨rfl, rfl, ?_⟩
  exact c2_focus_never_grows "M1" [] ⟨[(1, "w")], []⟩
    ⟨WorkspaceChange.Focus, some ⟨1, some "1", none⟩,
      some ⟨1, some "1", none⟩⟩ ⟨[], [(1, (1, "1"))]⟩ true (Or.inl rfl)
    rfl 5 rfl

/-- C3: an Init event upserts the Registry at the resolved key with a
widget rendered with live-lookup visibility, but never sets the dirty
flag, so no render line is emitted for an Init event. -/
theorem c3_init_upserts_without_render (monitor : String)
    (live : List Workspace) (st : State) (node : Node) (old : Option Node)
    (key : Nat) (name : String) (c' : Cache)
    (hres : get_name_key_from_node node st.cache = some ((key, name), c')) :
    processEvent monitor live st ⟨WorkspaceChange.Init, some node, old⟩ =
      some (⟨Registry.insert st.map key
        (get_button key name (get_visibility_node live node)), c'⟩,
        none) := by
  simp [processEvent, step, hres]

/-- Witness for C3 at a concrete Init event whose live lookup finds no
matching workspace, so the visibility token is the empty string. -/
theorem c3_witness :
    processEvent "M1" [] ⟨[], []⟩
      ⟨WorkspaceChange.Init, some ⟨2, some "2", none⟩, none⟩ =
      some (⟨[(2, get_button 2 "2"
        (get_visibility_node [] ⟨2, some "2", none⟩))],
        [(2, (2, "2"))]⟩, none) :=
  c3_init_upserts_without_render "M1" [] ⟨[], []⟩ ⟨2, some "2", none⟩ none
    2 "2" [(2, (2, "2"))] (by rfl)

/-- C4: on a fresh id, a separator-free raw name parsing as N resolves to
key N with label the raw string; a name of the form numPart-semicolon-rest
with numPart parsing as N resolves to key N with label rest stripped of
every ASCII character, with a fixed non-empty placeholder glyph substituted
when the stripped label is empty. -/
theorem c4_resolver_parse (id : Nat) (c : Cache)
    (hid : Cache.find? c id = none) :
    (∀ (name : String) (n : Nat), ';' ∉ name.data →
      rustParseUsize name = some n →
      get_name_key id name c = some ((n, name), (id, (n, name)) :: c))
    ∧ (∀ (numPart rest : List Char) (n : Nat), ';' ∉ numPart →
      rustParseUsize (String.mk numPart) = some n →
      get_name_key id (String.mk (numPart ++ ';' :: rest)) c =
        some ((n, if (keepNonAscii (String.mk rest)).length = 0
            then String.mk [placeholderChar]
            else keepNonAscii (String.mk rest)),
          (id, (n, if (keepNonAscii (String.mk rest)).length = 0
            then String.mk [placeholderChar]
            else keepNonAscii (String.mk rest))) :: c))
    ∧ String.mk [placeholderChar] ≠ "" := by
  refine ⟨?_, ?_, by decide⟩
  · intro name n hsep hp
    simp [get_name_key, hid, splitOnceSemi_of_not_mem hsep, hp]
  · intro numPart rest n hsep hp
    simp [get_name_key, hid, splitOnceSemi_append hsep, hp]

/-- Witness for C4: name with no separator, name with a non-ASCII glyph
after the separator, and a pure-ASCII remainder falling back to the
placeholder glyph. -/
theorem c4_witness :
    get_name_key 11 "3" [] = some ((3, "3"), [(11, (3, "3"))])
    ∧ get_name_key 12 (String.mk (['2'] ++ ';' :: ['a', 'b', '★'])) [] =
      some ((2, "★"), [(12, (2, "★"))])
    ∧ get_name_key 13 (String.mk (['4'] ++ ';' :: ['a', 'b'])) [] =
      some ((4, String.mk [placeholderChar]),
        [(13, (4, String.mk [placeholderChar]))]) := by
  refine ⟨?_, ?_, ?_⟩
  · exact (c4_resolver_parse 11 [] rfl).1 "3" 3 (by decide) (by rfl)
  · exact (c4_resolver_parse 12 [] rfl).2.1 ['2'] ['a', 'b', '★'] 2
      (by decide) (by rfl)
  · exact (c4_resolver_parse 13 [] rfl).2.1 ['4'] ['a', 'b'] 4
      (by decide) (by rfl)

/-- C5: the identity cache is write-once per id — resolving an already
cached id returns the cached pair with the cache unchanged, ignoring the
raw name; hence resolving the same id twice with two different raw names
yields the first call's result both times. -/
theorem c5_cache_write_once :
    (∀ (id : Nat) (name : String) (c : Cache) (p : Nat × String),
      Cache.find? c id = some p → get_name_key id name c = some (p, c))
    ∧ (∀ (id : Nat) (n1 n2 : String) (c c' : Cache) (p : Nat × String),
      get_name_key id n1 c = some (p, c') →
      get_name_key id n2 c' = some (p, c')) := by
  constructor
  · intro id name c p h
    exact get_name_key_cached h
  · intro id n1 n2 c c' p h
    exact get_name_key_cached (get_name_key_find h)

/-- Witness for C5: id 22 is first resolved from raw name "1"; a second
resolution with the different raw name "2;x" returns the first result and
the same cache. -/
theorem c5_witness :
    get_name_key 22 "1" [] = some ((1, "1"), [(22, (1, "1"))])
    ∧ get_name_key 22 "2;x" [(22, (1, "1"))] =
      some ((1, "1"), [(22, (1, "1"))]) := by
  constructor
  · rfl
  · exact c5_cache_write_once.2 22 "1" "2;x" [] [(22, (1, "1"))] (1, "1")
      rfl

/-- C6: a Focus event's old sub-step leaves the Registry unchanged when
old's resolved key is untracked; the current sub-step leaves it unchanged
when current's resolved key is untracked; and a Focus event never inserts
a key that was not already tracked. -/
theorem c6_focus_untracked_noop :
    (∀ (live : List Workspace) (map : Registry) (c : Cache) (node : Node)
      (key : Nat) (label : String) (c' : Cache),
      get_name_key_from_node node c = some ((key, label), c') →
      Registry.contains_key map key = false →
      focusOld live map c node = some (map, c', false))
    ∧ (∀ (map : Registry) (c : Cache) (node : Node) (key : Nat)
      (label : String) (c' : Cache),
      get_name_key_from_node node c = some ((key, label), c') →
      Registry.contains_key map key = false →
      focusCurrent map c node = some (map, c', false))
    ∧ (∀ (monitor : String) (live : List Workspace) (st : State)
      (cur old : Option Node) (st' : State) (u : Bool),
      step monitor live st ⟨WorkspaceChange.Focus, cur, old⟩ =
        some (st', u) →
      ∀ k, Registry.contains_key st'.map k = true →
        Registry.contains_key st.map k = true) := by
  refine ⟨?_, ?_, ?_⟩
  · intro live map c node key label c' hres hcont
    unfold focusOld
    rw [hres]
    simp [hcont]
  · intro map c node key label c' hres hcont
    unfold focusCurrent
    rw [hres]
    simp [hcont]
  · intro monitor live st cur old st' u h k
    exact step_focus_keys h k

/-- Witness for C6: untracked-old and untracked-current sub-steps on an
empty Registry are no-ops, and a Focus event that keeps tracked key 1
yields a key that was already tracked before the event. -/
theorem c6_witness :
    focusOld [] [] [] ⟨31, some "4", none⟩ =
      some ([], [(31, (4, "4"))], false)
    ∧ focusCurrent [] [] ⟨31, some "4", none⟩ =
      some ([], [(31, (4, "4"))], false)
    ∧ Registry.contains_key ([(1, "w")] : Registry) 1 = true := by
  refine ⟨?_, ?_, ?_⟩
  · exact c6_focus_untracked_noop.1 [] [] [] ⟨31, some "4", none⟩ 4 "4"
      [(31, (4, "4"))] rfl rfl
  · exact c6_focus_untracked_noop.2.1 [] [] ⟨31, some "4", none⟩ 4 "4"
      [(31, (4, "4"))] rfl rfl
  · exact c6_focus_untracked_noop.2.2 "M1"
      [⟨1, "1", "M1", true, false, false⟩] ⟨[(1, "w")], []⟩
      (some ⟨2, some "2", none⟩) (some ⟨1, some "1", none⟩)
      ⟨[(1, get_button 1 "1" "focused")], [(2, (2, "2")), (1, (1, "1"))]⟩
      true rfl 1 rfl

/-- C7: a Move event upserts with live-lookup visibility and marks dirty
when the output matches the monitor and the key is untracked; removes and
marks dirty when the output differs and the key is tracked; with no
output, removes and marks dirty exactly when the key was tracked; and is a
Registry/dirty no-op in every other case. -/
theorem c7_move_semantics (monitor : String) (live : List Workspace)
    (st : State) (node : Node) (old : Option Node) (key : Nat)
    (name : String) (c' : Cache)
    (hres : get_name_key_from_node node st.cache = some ((key, name), c')) :
    (∀ o, node.output = some o → o = monitor →
      Registry.contains_key st.map key = false →
      step monitor live st ⟨WorkspaceChange.Move, some node, old⟩ =
        some (⟨Registry.insert st.map key
          (get_button key name (get_visibility_node live node)), c'⟩,
          true))
    ∧ (∀ o, node.output = some o → o ≠ monitor →
      Registry.contains_key st.map key = true →
      step monitor live st ⟨WorkspaceChange.Move, some node, old⟩ =
        some (⟨Registry.remove st.map key, c'⟩, true))
    ∧ (node.output = none →
      step monitor live st ⟨WorkspaceChange.Move, some node, old⟩ =
        some (⟨Registry.remove st.map key, c'⟩,
          Registry.contains_key st.map key))
    ∧ (∀ o, node.output = some o →
      ((o = monitor ∧ Registry.contains_key st.map key = true) ∨
        (o ≠ monitor ∧ Registry.contains_key st.map key = false)) →
      step monitor live st ⟨WorkspaceChange.Move, some node, old⟩ =
        some (⟨st.map, c'⟩, false)) := by
  refine ⟨?_, ?_, ?_, ?_⟩
  · intro o ho hmon hcont
    have hb : (o == monitor) = true := beq_iff_eq.mpr hmon
    simp [step, hres, ho, hb, hcont]
  · intro o ho hne hcont
    have hb : (o == monitor) = false := beq_eq_false_iff_ne.mpr hne
    simp [step, hres, ho, hb, hcont, bne]
  · intro ho
    simp [step, hres, ho]
  · intro o ho hcase
    rcases hcase with ⟨hmon, hcont⟩ | ⟨hne, hcont⟩
    · have hb : (o == monitor) = true := beq_iff_eq.mpr hmon
      simp [step, hres, ho, hb, hcont, bne]
    · have hb : (o == monitor) = false := beq_eq_false_iff_ne.mpr hne
      simp [step, hres, ho, hb, hcont, bne]

/-- Witness for C7: a Move event with no output on tracked key 2 removes
it and marks dirty. -/
theorem c7_witness :
    step "M1" [] ⟨[(2, "w")], []⟩
      ⟨WorkspaceChange.Move, some ⟨33, some "2", none⟩, none⟩ =
      some (⟨[], [(33, (2, "2"))]⟩, true) :=
  (c7_move_semantics "M1" [] ⟨[(2, "w")], []⟩ ⟨33, some "2", none⟩ none 2
    "2" [(33, (2, "2"))] (by rfl)).2.2.1 rfl

/-- C8: after any sequence of upserts into an empty Registry, the keys are
strictly ascending (hence unique), so rendering emits the stored widgets
in ascending key order; in particular inserting keys 3, 1, 2 in that order
renders their widgets in the order 1, 2, 3. -/
theorem c8_registry_sorted_render :
    (∀ ops : List (Nat × String),
      ((ops.foldl (fun m p => Registry.insert m p.1 p.2)
        ([] : Registry)).map Prod.fst).Pairwise (· < ·)
      ∧ ((ops.foldl (fun m p => Registry.insert m p.1 p.2)
        ([] : Registry)).map Prod.fst).Nodup)
    ∧ (([(3, "w3"), (1, "w1"), (2, "w2")] : List (Nat × String)).foldl
        (fun m p => Registry.insert m p.1 p.2) ([] : Registry)).map
        (fun p => p.2) = ["w1", "w2", "w3"] := by
  constructor
  · intro ops
    have hgen : ∀ (l : List (Nat × String)) (m : Registry),
        m.Pairwise (fun a b => a.1 < b.1) →
        (l.foldl (fun m p => Registry.insert m p.1 p.2) m).Pairwise
          (fun a b => a.1 < b.1) := by
      intro l
      induction l with
      | nil => intro m hm; exact hm
      | cons hd tl ih =>
        intro m hm
        exact ih _ (pairwise_insert hm)
    have hp := hgen ops [] List.Pairwise.nil
    refine ⟨List.pairwise_map.mpr hp, ?_⟩
    exact List.Pairwise.imp (fun h => ne_of_lt h) (List.pairwise_map.mpr hp)
  · rfl

/-- C9: a numeric-portion parse failure is fatal — an Empty event whose
current name fails the direct integer parse makes the step fail, the
Identity Resolver fails on a fresh id whose numeric portion does not
parse, and a failed resolution propagates to a failed step for Urgent,
Init, Move and Focus events. -/
theorem c9_parse_failure_fatal :
    (∀ (monitor : String) (live : List Workspace) (st : State)
      (node : Node) (old : Option Node) (nm : String),
      node.name = some nm → rustParseUsize nm = none →
      step monitor live st ⟨WorkspaceChange.Empty, some node, old⟩ = none)
    ∧ (∀ (id : Nat) (name : String) (c : Cache),
      Cache.find? c id = none →
      rustParseUsize (numericPortion name) = none →
      get_name_key id name c = none)
    ∧ (∀ (monitor : String) (live : List Workspace) (st : State)
      (node : Node) (old : Option Node) (ch : WorkspaceChange),
      (ch = WorkspaceChange.Urgent ∨ ch = WorkspaceChange.Init ∨
        ch = WorkspaceChange.Move) →
      get_name_key_from_node node st.cache = none →
      step monitor live st ⟨ch, some node, old⟩ = none)
    ∧ (∀ (monitor : String) (live : List Workspace) (st : State)
      (node : Node) (cur : Option Node),
      get_name_key_from_node node st.cache = none →
      step monitor live st ⟨WorkspaceChange.Focus, cur, some node⟩ =
        none) := by
  refine ⟨?_, ?_, ?_, ?_⟩
  · intro monitor live st node old nm hnm hp
    simp [step, hnm, hp]
  · intro id name c hid hp
    rcases hs : splitOnceSemi name.data with _ | ⟨np, rest⟩
    · rw [numericPortion, hs] at hp
      simp [get_name_key, hid, hs, hp]
    · rw [numericPortion, hs] at hp
      simp [get_name_key, hid, hs, hp]
  · intro monitor live st node old ch hch hres
    rcases hch with hc | hc | hc
    all_goals subst hc
    · simp [step, hres]
    · simp [step, hres]
    · simp [step, hres]
  · intro monitor live st node cur hres
    simp [step, focusOld, hres]

/-- Witness for C9: the unparsable names x, y-semicolon-a, z and w make the
Empty, resolver, Urgent and Focus paths fail. -/
theorem c9_witness :
    step "M1" [] ⟨[], []⟩
      ⟨WorkspaceChange.Empty, some ⟨41, some "x", none⟩, none⟩ = none
    ∧ get_name_key 42 "y;a" [] = none
    ∧ step "M1" [] ⟨[], []⟩
      ⟨WorkspaceChange.Urgent, some ⟨43, some "z", none⟩, none⟩ = none
    ∧ step "M1" [] ⟨[], []⟩
      ⟨WorkspaceChange.Focus, none, some ⟨44, some "w", none⟩⟩ = none := by
  refine ⟨?_, ?_, ?_, ?_⟩
  · exact c9_parse_failure_fatal.1 "M1" [] ⟨[], []⟩ ⟨41, some "x", none⟩
      none "x" rfl rfl
  · exact c9_parse_failure_fatal.2.1 42 "y;a" [] rfl (by rfl)
  · exact c9_parse_failure_fatal.2.2.1 "M1" [] ⟨[], []⟩
      ⟨43, some "z", none⟩ none WorkspaceChange.Urgent (Or.inl rfl) rfl
  · exact c9_parse_failure_fatal.2.2.2 "M1" [] ⟨[], []⟩
      ⟨44, some "w", none⟩ none rfl

/-- C10: in the Focus old sub-step on a tracked key, the keep-versus-remove
decision searches the live list for a workspace whose name equals old's
raw name — while the visibility stored on keep comes from the id-matching
live lookup — so when no live workspace carries old's name the entry is
removed even if a live workspace still has old's id. -/
theorem c10_focus_old_name_vs_id (live : List Workspace) (map : Registry)
    (c : Cache) (node : Node) (nm : String) (key : Nat) (label : String)
    (c' : Cache) (hnm : node.name = some nm)
    (hres : get_name_key_from_node node c = some ((key, label), c'))
    (htracked : Registry.contains_key map key = true) :
    ((∃ w ∈ live, w.name = nm) →
      focusOld live map c node = some (Registry.insert map key
        (get_button key label (get_visibility_node live node)), c', true))
    ∧ ((∀ w ∈ live, w.name ≠ nm) →
      focusOld live map c node = some (Registry.remove map key, c',
        true)) := by
  constructor
  · intro hex
    obtain ⟨w0, hw0, hw0n⟩ := hex
    rcases hfi : live.find? (fun w => w.name == nm) with _ | w
    · exfalso
      rw [List.find?_eq_none] at hfi
      exact hfi w0 hw0 (by simp [hw0n])
    · unfold focusOld
      rw [hres]
      simp [htracked, hnm, hfi]
  · intro hall
    have hfi : live.find? (fun w => w.name == nm) = none := by
      rw [List.find?_eq_none]
      intro w hw
      simp [hall w hw]
    unfold focusOld
    rw [hres]
    simp [htracked, hnm, hfi]

/-- Witness for C10: the live list holds a workspace with old's id 10 but
name 2 instead of old's name 1, so the tracked entry for key 1 is removed
even though a workspace with old's id still exists. -/
theorem c10_witness :
    focusOld [⟨10, "2", "M1", false, false, false⟩] [(1, "b")] []
      ⟨10, some "1", none⟩ = some ([], [(10, (1, "1"))], true)
    ∧ (⟨10, "2", "M1", false, false, false⟩ : Workspace).id =
      (⟨10, some "1", none⟩ : Node).id
    ∧ ("2" : String) ≠ "1" := by
  refine ⟨?_, rfl, by decide⟩
  exact (c10_focus_old_name_vs_id [⟨10, "2", "M1", false, false, false⟩]
    [(1, "b")] [] ⟨10, some "1", none⟩ "1" 1 "1" [(10, (1, "1"))] rfl
    (by rfl) rfl).2 (by decide)

end I3Workspaces
